import Mathlib

/-!
Shallow embedding of the vrc_volta battery forwarder (src/main.rs).

The program polls two diagnostic text dumps, extracts three raw battery
readings (headset, left controller, right controller), normalizes them to
fractions of their device scales, and publishes three OSC messages.  Text is
modelled as `List Char`; the 32-bit float arithmetic of the original is
modelled by exact rational arithmetic (every `u8` converts to `f32` exactly;
the properties stated below are robust under `f32` rounding).
-/

deriving instance DecidableEq for Except

namespace Volta

/-- A dump is a sequence of characters, as produced by the adb subprocess. -/
abbrev Text := List Char

/-- Mirrors `const LEVEL_KEY: &str = "  level: "` (two leading spaces). -/
def LEVEL_KEY : Text := ("  level: ".data)

/-- Mirrors `const HANDLER_KEY: &str = "   handler: "` (three leading spaces). -/
def HANDLER_KEY : Text := ("   handler: ".data)

/-- Mirrors `const BATTERY_KEY: &str = "   battery: "` (three leading spaces). -/
def BATTERY_KEY : Text := ("   battery: ".data)

/-- The literal head of `REGEX_CONTROLLER_LEFT`: `handler: left`. -/
def LEFT_TAG : Text := ("handler: left".data)

/-- The literal head of `REGEX_CONTROLLER_RIGHT`: `handler: right`. -/
def RIGHT_TAG : Text := ("handler: right".data)

/-- The literal `battery: ` that both controller regexes require before the
digit capture group. -/
def BATTERY_TAG : Text := ("battery: ".data)

/-- Boolean test that `pat` is a prefix of `s`; models Rust `str::starts_with`
and the anchoring of a literal at a position. -/
def hasPref : Text → Text → Bool
  | [], _ => true
  | _ :: _, [] => false
  | p :: ps, c :: cs => (p == c) && hasPref ps cs

/-- Split a character sequence at every newline; the separators are dropped
and the boundary pieces kept (never returns an empty list). -/
def splitNl : Text → List Text
  | [] => [[]]
  | c :: cs =>
    if c = '\n' then [] :: splitNl cs
    else
      match splitNl cs with
      | [] => [[c]]
      | p :: ps => (c :: p) :: ps

/-- Remove one trailing carriage return, as Rust `str::lines` does for the
pieces that were terminated by a newline. -/
def stripCR (l : Text) : Text :=
  if l.getLast? = some '\r' then l.dropLast else l

/-- Post-processing of the split pieces: every newline-terminated piece has a
trailing `\r` stripped, and a final empty piece (from a trailing newline, or
an empty input) is dropped. -/
def linesAux : List Text → List Text
  | [] => []
  | [p] => if p = [] then [] else [p]
  | p :: q :: ps => stripCR p :: linesAux (q :: ps)

/-- Models Rust `str::lines`: split on `\n`, strip a trailing `\r` from each
newline-terminated line, no trailing empty line. -/
def rustLines (s : Text) : List Text := linesAux (splitNl s)

/-- Worker for `replaceAll`, structurally recursive on a fuel argument that
bounds the length of the remaining input (one unit per character consumed from
the front). -/
def replaceAllGo (pat : Text) : Nat → Text → Text
  | _, [] => []
  | 0, s => s
  | fuel + 1, c :: cs =>
    if pat ≠ [] ∧ hasPref pat (c :: cs) = true then
      replaceAllGo pat fuel (List.drop (pat.length - 1) cs)
    else
      c :: replaceAllGo pat fuel cs

/-- Models Rust `str::replace(pat, "")`: remove every non-overlapping
occurrence of `pat`, scanning left to right. -/
def replaceAll (pat s : Text) : Text := replaceAllGo pat s.length s

/-- The digit phase of Rust `str::parse::<u8>`: at least one ASCII digit and
nothing else, with the value required to fit in eight bits. -/
def parseDigits (digits : Text) : Option Nat :=
  if (!digits.isEmpty) && digits.all Char.isDigit then
    let v := digits.foldl (fun a c => a * 10 + (c.toNat - 48)) 0
    if v ≤ 255 then some v else none
  else none

/-- Models Rust `str::parse::<u8>`: an optional leading `+`, then at least one
ASCII digit, with the value required to fit in eight bits. -/
def parseU8 (t : Text) : Option Nat :=
  match t with
  | '+' :: rest => parseDigits rest
  | _ => parseDigits t

/-- Return the suffix of `s` immediately after the first occurrence of `pat`,
or `none` when `pat` never occurs.  This is how the non-greedy gap of the
controller regexes selects the nearest following literal. -/
def dropAfterFirst (pat : Text) : Text → Option Text
  | [] => if hasPref pat [] then some [] else none
  | c :: cs =>
    if hasPref pat (c :: cs) then some (List.drop pat.length (c :: cs))
    else dropAfterFirst pat cs

/-- The first capture of the regex `tag[.\s\S]*?battery: ([0-9]*)` run on `s`
(`captures_iter(..).next()`): anchor at the first occurrence of `tag`, cross a
shortest gap to the next `battery: `, then capture a maximal (possibly empty)
digit run. -/
def regexCapture (tag s : Text) : Option Text :=
  match dropAfterFirst tag s with
  | none => none
  | some rest =>
    match dropAfterFirst BATTERY_TAG rest with
    | none => none
    | some afterBat => some (afterBat.takeWhile Char.isDigit)

/-- The distinct failure contexts attached in `get_levels`. -/
inductive VoltaError where
  | headsetNotFound
  | headsetParseError
  | leftCaptureNotFound
  | leftParseError
  | rightCaptureNotFound
  | rightParseError
deriving DecidableEq, Repr

/-- Headset extraction from `get_levels`: first line starting with
`LEVEL_KEY`, all occurrences of `LEVEL_KEY` removed via `str::replace`, the
result parsed as `u8`. -/
def extract_headset (dump : Text) : Except VoltaError Nat :=
  match (rustLines dump).find? (fun l => hasPref LEVEL_KEY l) with
  | none => .error .headsetNotFound
  | some line =>
    match parseU8 (replaceAll LEVEL_KEY line) with
    | none => .error .headsetParseError
    | some n => .ok n

/-- The filtered controller block: keep only lines starting with
`HANDLER_KEY` or `BATTERY_KEY`, rejoined with single newlines
(`filter … intersperse("\n") … collect`). -/
def controllerBlock (dump : Text) : Text :=
  List.intercalate ['\n']
    ((rustLines dump).filter (fun l => hasPref HANDLER_KEY l || hasPref BATTERY_KEY l))

/-- Left-controller extraction from the filtered block: first capture of
`REGEX_CONTROLLER_LEFT`, parsed as `u8`. -/
def extract_left (controllers : Text) : Except VoltaError Nat :=
  match regexCapture LEFT_TAG controllers with
  | none => .error .leftCaptureNotFound
  | some cap =>
    match parseU8 cap with
    | none => .error .leftParseError
    | some n => .ok n

/-- Right-controller extraction from the filtered block: first capture of
`REGEX_CONTROLLER_RIGHT`, parsed as `u8`. -/
def extract_right (controllers : Text) : Except VoltaError Nat :=
  match regexCapture RIGHT_TAG controllers with
  | none => .error .rightCaptureNotFound
  | some cap =>
    match parseU8 cap with
    | none => .error .rightParseError
    | some n => .ok n

/-- Mirrors `struct BatteryLevels`, with the `f32` fields modelled as exact
rationals. -/
structure BatteryLevels where
  headset : ℚ
  left_controller : ℚ
  right_controller : ℚ
deriving DecidableEq, Repr

/-- The normalization step at the end of `get_levels`: raw reading divided by
the device scale (100 for the headset, 5 per controller), no clamping. -/
def normalize (headset left_controller right_controller : Nat) : BatteryLevels :=
  { headset := (headset : ℚ) / 100
    left_controller := (left_controller : ℚ) / 5
    right_controller := (right_controller : ℚ) / 5 }

/-- `fn get_levels` as a pure function of the two dumps: headset extraction,
then left and right controller extraction from the filtered block, each `?`
propagating its error, then normalization. -/
def get_levels (batteryDump controllerDump : Text) : Except VoltaError BatteryLevels :=
  match extract_headset batteryDump with
  | .error e => .error e
  | .ok headset =>
    let controllers := controllerBlock controllerDump
    match extract_left controllers with
    | .error e => .error e
    | .ok left_controller =>
      match extract_right controllers with
      | .error e => .error e
      | .ok right_controller => .ok (normalize headset left_controller right_controller)

/-! ## The poll cycle -/

/-- Ways `get_battery_dump` / `get_controller_service_dump` can fail before
yielding text: the adb subprocess cannot be run, or its output is not UTF-8.
Both are met by `.expect(..)` in the source, i.e. a panic. -/
inductive SubprocessError where
  | spawnFailure
  | nonUtf8Output
deriving DecidableEq, Repr

/-- Observable outcome of one iteration of the `loop` in `main`. -/
inductive CycleOutcome where
  /-- Extraction succeeded; these address/value messages were sent, in order. -/
  | published (msgs : List (String × ℚ))
  /-- `get_levels` returned `Err`: the error branch logs and sends nothing. -/
  | loggedError
  /-- An `.expect(..)` fired and the process crashed with this message. -/
  | panicked (msg : String)
deriving DecidableEq, Repr

/-- The three OSC messages built in `main` from one `BatteryLevels`, in source
order: headset, left controller, right controller. -/
def oscMessages (levels : BatteryLevels) : List (String × ℚ) :=
  [("/avatar/parameters/BatteryLevelHeadset", levels.headset),
    ("/avatar/parameters/BatteryLevelControllerLeft", levels.left_controller),
    ("/avatar/parameters/BatteryLevelControllerRight", levels.right_controller)]

/-- One iteration of the poll loop, as a function of what the two adb
invocations would yield this cycle.  `get_battery_dump` runs first and panics
on subprocess failure; a headset extraction error short-circuits `get_levels`
before `get_controller_service_dump` runs; a controller subprocess failure
panics; any extraction error hits the `error!` branch and nothing is sent;
otherwise the three messages are encoded and sent. -/
def run_cycle (batteryRes controllerRes : Except SubprocessError Text) : CycleOutcome :=
  match batteryRes with
  | .error _ => .panicked ("Failed to get headset battery")
  | .ok batteryDump =>
    match extract_headset batteryDump with
    | .error _ => .loggedError
    | .ok _ =>
      match controllerRes with
      | .error _ => .panicked ("Failed to get controller batteries")
      | .ok controllerDump =>
        match get_levels batteryDump controllerDump with
        | .error _ => .loggedError
        | .ok levels => .published (oscMessages levels)

/-! ## Definitions following the specification's wording, for comparison -/

/-- Strip one leading occurrence of `pat`, when present.  Used by
`spec_extract_headset`. -/
def stripLeading (pat s : Text) : Text :=
  if hasPref pat s then List.drop pat.length s else s

/-- Headset extraction as the specification words it: take the first line
beginning with `LEVEL_KEY`, strip that prefix from the remainder of that
line (rather than replacing every occurrence as the code does), and parse the
remainder as an unsigned 8-bit integer. -/
def spec_extract_headset (dump : Text) : Except VoltaError Nat :=
  match (rustLines dump).find? (fun l => hasPref LEVEL_KEY l) with
  | none => .error .headsetNotFound
  | some line =>
    match parseU8 (stripLeading LEVEL_KEY line) with
    | none => .error .headsetParseError
    | some n => .ok n

/-- Does some occurrence of `BATTERY_TAG` followed immediately by at least one
digit appear in `s`?  Building block of `claimPatternMatches`. -/
def hasDigitAfterBat : Text → Bool
  | [] => false
  | c :: cs =>
    (hasPref BATTERY_TAG (c :: cs) &&
      (match List.drop BATTERY_TAG.length (c :: cs) with
        | d :: _ => d.isDigit
        | [] => false)) ||
    hasDigitAfterBat cs

/-- Whether the pattern the specification describes — `tag` followed (across
anything) by `battery: ` and at least one digit — matches anywhere in `s`.
Such a match exists iff the first occurrence of `tag` is followed by a
digit-carrying `battery: ` marker. -/
def claimPatternMatches (tag s : Text) : Bool :=
  match dropAfterFirst tag s with
  | none => false
  | some rest => hasDigitAfterBat rest

/-! ## Helper lemmas about the scanners -/

theorem hasPref_iff (p s : Text) : hasPref p s = true ↔ ∃ t, s = p ++ t := by
  induction p generalizing s with
  | nil => simp [hasPref]
  | cons a as ih =>
    cases s with
    | nil => simp [hasPref]
    | cons c cs =>
      simp only [hasPref, Bool.and_eq_true, beq_iff_eq, ih, List.cons_append,
        List.cons.injEq]
      constructor
      · rintro ⟨rfl, t, rfl⟩
        exact ⟨t, rfl, rfl⟩
      · rintro ⟨t, rfl, rfl⟩
        exact ⟨rfl, t, rfl⟩

theorem hasPref_append (p t : Text) : hasPref p (p ++ t) = true :=
  (hasPref_iff p (p ++ t)).mpr ⟨t, rfl⟩

theorem hasPref_nil_iff (p : Text) : hasPref p [] = true ↔ p = [] := by
  cases p <;> simp [hasPref]

theorem dropAfterFirst_eq_none (p s : Text) :
    dropAfterFirst p s = none ↔ ∀ i, hasPref p (s.drop i) = false := by
  induction s with
  | nil =>
    simp only [dropAfterFirst, List.drop_nil]
    constructor
    · intro h i
      by_cases hp : hasPref p [] = true
      · simp [hp] at h
      · simpa using hp
    · intro h
      simp [h 0]
  | cons c cs ih =>
    by_cases hp : hasPref p (c :: cs) = true
    · have hL : dropAfterFirst p (c :: cs) = some (List.drop p.length (c :: cs)) := by
        simp [dropAfterFirst, hp]
      rw [hL]
      constructor
      · intro h
        exact absurd h (Option.some_ne_none _)
      · intro h
        have h0 := h 0
        rw [List.drop_zero, hp] at h0
        exact absurd h0 (by decide)
    · have hp' : hasPref p (c :: cs) = false := by simpa using hp
      have hL : dropAfterFirst p (c :: cs) = dropAfterFirst p cs := by
        simp [dropAfterFirst, hp']
      rw [hL, ih]
      constructor
      · intro h i
        cases i with
        | zero => simpa using hp'
        | succ j => simpa using h j
      · intro h j
        simpa using h (j + 1)

theorem dropAfterFirst_eq_some (p s t : Text) (h : dropAfterFirst p s = some t) :
    ∃ i, hasPref p (s.drop i) = true ∧ t = s.drop (i + p.length) ∧
      ∀ j, j < i → hasPref p (s.drop j) = false := by
  induction s generalizing t with
  | nil =>
    have hp0 : p = [] := by
      by_cases hp : hasPref p [] = true
      · cases p with
        | nil => rfl
        | cons a as => simp [hasPref] at hp
      · simp [dropAfterFirst, hp] at h
    subst hp0
    have ht := h
    simp [dropAfterFirst, hasPref] at ht
    subst ht
    exact ⟨0, rfl, rfl, fun j hj => by omega⟩
  | cons c cs ih =>
    by_cases hp : hasPref p (c :: cs) = true
    · refine ⟨0, hp, ?_, fun j hj => by omega⟩
      simp only [dropAfterFirst, hp, if_true, Option.some.injEq] at h
      simp [← h]
    · have hp' : hasPref p (c :: cs) = false := by simpa using hp
      have hL : dropAfterFirst p (c :: cs) = dropAfterFirst p cs := by
        simp [dropAfterFirst, hp']
      rw [hL] at h
      obtain ⟨i, h1, h2, h3⟩ := ih t h
      refine ⟨i + 1, by simpa using h1, ?_, ?_⟩
      · have hd : List.drop (i + 1 + p.length) (c :: cs) = List.drop (i + p.length) cs := by
          have harith : i + 1 + p.length = (i + p.length) + 1 := by omega
          rw [harith, List.drop_succ_cons]
        rw [hd]
        exact h2
      · intro j hj
        cases j with
        | zero => simpa using hp'
        | succ k =>
          simp only [List.drop_succ_cons]
          exact h3 k (by omega)

theorem parseDigits_le (d : Text) (n : Nat) (h : parseDigits d = some n) : n ≤ 255 := by
  unfold parseDigits at h
  split at h
  · dsimp only at h
    split at h
    · simp_all
    · simp_all
  · simp_all

theorem parseU8_le (t : Text) (n : Nat) (h : parseU8 t = some n) : n ≤ 255 := by
  unfold parseU8 at h
  split at h
  · exact parseDigits_le _ _ h
  · exact parseDigits_le _ _ h

theorem find_skip (p : Text → Bool) (pre post : List Text) (line : Text)
    (hpre : ∀ l ∈ pre, p l = false) (hl : p line = true) :
    (pre ++ line :: post).find? p = some line := by
  induction pre with
  | nil => simp [List.find?, hl]
  | cons a as ih =>
    have ha : p a = false := hpre a (by simp)
    simp only [List.cons_append, List.find?, ha]
    exact ih fun l hm => hpre l (by simp [hm])

theorem replaceAllGo_id (p : Text) (fuel : Nat) (s : Text)
    (h : ∀ i, hasPref p (s.drop i) = false) : replaceAllGo p fuel s = s := by
  induction fuel generalizing s with
  | zero => cases s <;> rfl
  | succ fuel ih =>
    cases s with
    | nil => rfl
    | cons c cs =>
      have h0 : hasPref p (c :: cs) = false := by simpa using h 0
      have hno : ¬ (p ≠ [] ∧ hasPref p (c :: cs) = true) := by simp [h0]
      simp only [replaceAllGo, if_neg hno, List.cons.injEq, true_and]
      exact ih cs fun i => by simpa using h (i + 1)

theorem replaceAllGo_cons_match (p : Text) (fuel : Nat) (c : Char) (cs : Text)
    (hp : p ≠ []) (hm : hasPref p (c :: cs) = true) :
    replaceAllGo p (fuel + 1) (c :: cs) =
      replaceAllGo p fuel (List.drop (p.length - 1) cs) := by
  simp [replaceAllGo, hp, hm]

theorem hasPref_levelKey_digits (s : Text) (hs : ∀ c ∈ s, c.isDigit = true) :
    ∀ i, hasPref LEVEL_KEY (List.drop i s) = false := by
  intro i
  cases hd : List.drop i s with
  | nil => rfl
  | cons c cs =>
    have hc : c ∈ s := List.mem_of_mem_drop (hd ▸ List.mem_cons_self c cs)
    have hcd := hs c hc
    have hne : (' ' == c) = false := by
      rw [beq_eq_false_iff_ne]
      intro he
      rw [← he] at hcd
      exact absurd hcd (by decide)
    rw [show LEVEL_KEY = ' ' :: (" level: ".data) from rfl]
    simp [hasPref, hne]

theorem replaceAll_strip (p s : Text) (hp : p ≠ [])
    (h : ∀ i, hasPref p (s.drop i) = false) : replaceAll p (p ++ s) = s := by
  cases p with
  | nil => exact absurd rfl hp
  | cons a as =>
    have hm : hasPref (a :: as) (a :: (as ++ s)) = true := by
      simpa using hasPref_append (a :: as) s
    have h1 : replaceAll (a :: as) (a :: as ++ s) =
        replaceAllGo (a :: as) ((as ++ s).length + 1) (a :: (as ++ s)) := by
      simp [replaceAll]
    rw [h1, replaceAllGo_cons_match (a :: as) ((as ++ s).length) a (as ++ s) hp hm]
    have hdrop : List.drop ((a :: as).length - 1) (as ++ s) = s := by
      simp [List.drop_left]
    rw [hdrop]
    exact replaceAllGo_id _ _ s h
/-! ### Equation lemmas for the extraction functions -/

theorem extract_headset_noline (d : Text)
    (h : (rustLines d).find? (fun l => hasPref LEVEL_KEY l) = none) :
    extract_headset d = .error .headsetNotFound := by
  unfold extract_headset
  rw [h]

theorem extract_headset_found (d line : Text)
    (h : (rustLines d).find? (fun l => hasPref LEVEL_KEY l) = some line) :
    extract_headset d =
      (match parseU8 (replaceAll LEVEL_KEY line) with
        | none => Except.error VoltaError.headsetParseError
        | some n => Except.ok n) := by
  unfold extract_headset
  rw [h]

theorem extract_left_nocap (block : Text) (h : regexCapture LEFT_TAG block = none) :
    extract_left block = .error .leftCaptureNotFound := by
  unfold extract_left
  rw [h]

theorem extract_left_cap (block cap : Text) (h : regexCapture LEFT_TAG block = some cap) :
    extract_left block =
      (match parseU8 cap with
        | none => Except.error VoltaError.leftParseError
        | some n => Except.ok n) := by
  unfold extract_left
  rw [h]

theorem extract_right_nocap (block : Text) (h : regexCapture RIGHT_TAG block = none) :
    extract_right block = .error .rightCaptureNotFound := by
  unfold extract_right
  rw [h]

theorem extract_right_cap (block cap : Text) (h : regexCapture RIGHT_TAG block = some cap) :
    extract_right block =
      (match parseU8 cap with
        | none => Except.error VoltaError.rightParseError
        | some n => Except.ok n) := by
  unfold extract_right
  rw [h]

/-- The first capture of either controller regex is the digits after the first
`battery: ` marker following the first occurrence of the handler tag:
positions `i` (tag) and `i + tag.length + k` (marker) are both minimal. -/
theorem regexCapture_eq_some (tag s cap : Text) (h : regexCapture tag s = some cap) :
    ∃ i, hasPref tag (s.drop i) = true ∧
      (∀ j, j < i → hasPref tag (s.drop j) = false) ∧
      ∃ k, hasPref BATTERY_TAG (s.drop (i + tag.length + k)) = true ∧
        (∀ m, m < k → hasPref BATTERY_TAG (s.drop (i + tag.length + m)) = false) ∧
        cap = (s.drop (i + tag.length + k + BATTERY_TAG.length)).takeWhile Char.isDigit := by
  unfold regexCapture at h
  cases h1 : dropAfterFirst tag s with
  | none => simp [h1] at h
  | some rest =>
    simp only [h1] at h
    cases h2 : dropAfterFirst BATTERY_TAG rest with
    | none => simp [h2] at h
    | some afterBat =>
      simp only [h2] at h
      obtain ⟨i, hi1, hi2, hi3⟩ := dropAfterFirst_eq_some _ _ _ h1
      obtain ⟨k, hk1, hk2, hk3⟩ := dropAfterFirst_eq_some _ _ _ h2
      subst hi2
      have hdd : ∀ m : Nat,
          List.drop m (List.drop (i + tag.length) s) = List.drop (i + tag.length + m) s := by
        intro m
        rw [List.drop_drop]
      refine ⟨i, hi1, hi3, k, ?_, ?_, ?_⟩
      · rw [← hdd k]
        exact hk1
      · intro m hm
        rw [← hdd m]
        exact hk3 m hm
      · have hcap : cap = afterBat.takeWhile Char.isDigit := by
          simpa using h.symm
        rw [hcap, hk2, hdd (k + BATTERY_TAG.length)]
        have harith : i + tag.length + (k + BATTERY_TAG.length) =
            i + tag.length + k + BATTERY_TAG.length := by omega
        rw [harith]

/-- The controller regexes fail to match exactly when no occurrence of the
handler tag is followed by a later `battery: ` marker. -/
theorem regexCapture_eq_none (tag s : Text) :
    regexCapture tag s = none ↔
      ¬ ∃ i k, hasPref tag (s.drop i) = true ∧
        hasPref BATTERY_TAG (s.drop (i + tag.length + k)) = true := by
  constructor
  · intro h
    rintro ⟨i, k, hti, hbk⟩
    unfold regexCapture at h
    cases h1 : dropAfterFirst tag s with
    | none =>
      have hno := (dropAfterFirst_eq_none tag s).mp h1 i
      rw [hno] at hti
      exact absurd hti (by decide)
    | some rest =>
      simp only [h1] at h
      cases h2 : dropAfterFirst BATTERY_TAG rest with
      | some afterBat => simp [h2] at h
      | none =>
        obtain ⟨i0, hi1, hi2, hi3⟩ := dropAfterFirst_eq_some _ _ _ h1
        have hge : i0 ≤ i := by
          by_contra hlt
          have hf := hi3 i (by omega)
          rw [hf] at hti
          exact absurd hti (by decide)
        have hrest := (dropAfterFirst_eq_none BATTERY_TAG rest).mp h2 (i - i0 + k)
        rw [hi2, List.drop_drop] at hrest
        have harith : i0 + tag.length + (i - i0 + k) = i + tag.length + k := by omega
        have harith2 : i - i0 + k + (i0 + tag.length) = i + tag.length + k := by omega
        rw [show i0 + List.length tag + (i - i0 + k) = i + tag.length + k from harith] at hrest
        rw [hrest] at hbk
        exact absurd hbk (by decide)
  · intro hne
    cases hc : regexCapture tag s with
    | none => rfl
    | some cap =>
      obtain ⟨i, hi1, _, k, hk1, _, _⟩ := regexCapture_eq_some tag s cap hc
      exact absurd ⟨i, k, hi1, hk1⟩ hne

/-- `extract_left` reports `leftCaptureNotFound` exactly when the left regex
never matches. -/
theorem extract_left_notFound_iff (block : Text) :
    extract_left block = .error .leftCaptureNotFound ↔
      regexCapture LEFT_TAG block = none := by
  cases hc : regexCapture LEFT_TAG block with
  | none => simp [extract_left_nocap block hc]
  | some cap =>
    rw [extract_left_cap block cap hc]
    cases hp : parseU8 cap with
    | none => simp
    | some m => simp

/-- `extract_right` reports `rightCaptureNotFound` exactly when the right
regex never matches. -/
theorem extract_right_notFound_iff (block : Text) :
    extract_right block = .error .rightCaptureNotFound ↔
      regexCapture RIGHT_TAG block = none := by
  cases hc : regexCapture RIGHT_TAG block with
  | none => simp [extract_right_nocap block hc]
  | some cap =>
    rw [extract_right_cap block cap hc]
    cases hp : parseU8 cap with
    | none => simp
    | some m => simp

theorem extract_headset_le (d : Text) (n : Nat) (h : extract_headset d = .ok n) :
    n ≤ 255 := by
  cases hf : (rustLines d).find? (fun l => hasPref LEVEL_KEY l) with
  | none => rw [extract_headset_noline d hf] at h; cases h
  | some line =>
    rw [extract_headset_found d line hf] at h
    cases hp : parseU8 (replaceAll LEVEL_KEY line) with
    | none => rw [hp] at h; cases h
    | some m =>
      rw [hp] at h
      cases h
      exact parseU8_le _ _ hp

theorem extract_left_le (block : Text) (n : Nat) (h : extract_left block = .ok n) :
    n ≤ 255 := by
  cases hc : regexCapture LEFT_TAG block with
  | none => rw [extract_left_nocap block hc] at h; cases h
  | some cap =>
    rw [extract_left_cap block cap hc] at h
    cases hp : parseU8 cap with
    | none => rw [hp] at h; cases h
    | some m =>
      rw [hp] at h
      cases h
      exact parseU8_le _ _ hp

theorem extract_right_le (block : Text) (n : Nat) (h : extract_right block = .ok n) :
    n ≤ 255 := by
  cases hc : regexCapture RIGHT_TAG block with
  | none => rw [extract_right_nocap block hc] at h; cases h
  | some cap =>
    rw [extract_right_cap block cap hc] at h
    cases hp : parseU8 cap with
    | none => rw [hp] at h; cases h
    | some m =>
      rw [hp] at h
      cases h
      exact parseU8_le _ _ hp

theorem get_levels_headset_err (bd cd : Text) (e : VoltaError)
    (h : extract_headset bd = .error e) : get_levels bd cd = .error e := by
  unfold get_levels
  rw [h]

theorem get_levels_headset_ok (bd cd : Text) (hn : Nat)
    (h : extract_headset bd = .ok hn) :
    get_levels bd cd =
      (match extract_left (controllerBlock cd) with
        | .error e => .error e
        | .ok ln =>
          match extract_right (controllerBlock cd) with
          | .error e => .error e
          | .ok rn => .ok (normalize hn ln rn)) := by
  unfold get_levels
  rw [h]

/-- Inversion for a successful `get_levels`: each stage succeeded and the
result is the normalization of the three raw readings. -/
theorem get_levels_ok (bd cd : Text) (lv : BatteryLevels)
    (h : get_levels bd cd = .ok lv) :
    ∃ hn ln rn, extract_headset bd = .ok hn ∧
      extract_left (controllerBlock cd) = .ok ln ∧
      extract_right (controllerBlock cd) = .ok rn ∧ lv = normalize hn ln rn := by
  cases h1 : extract_headset bd with
  | error e => rw [get_levels_headset_err bd cd e h1] at h; cases h
  | ok hn =>
    rw [get_levels_headset_ok bd cd hn h1] at h
    cases h2 : extract_left (controllerBlock cd) with
    | error e => rw [h2] at h; cases h
    | ok ln =>
      rw [h2] at h
      cases h3 : extract_right (controllerBlock cd) with
      | error e => rw [h3] at h; cases h
      | ok rn =>
        rw [h3] at h
        cases h
        exact ⟨hn, ln, rn, rfl, rfl, rfl, rfl⟩
/-! ### Equation lemmas for the poll cycle -/

theorem run_cycle_batt_err (e : SubprocessError) (cr : Except SubprocessError Text) :
    run_cycle (.error e) cr = .panicked ("Failed to get headset battery") := rfl

theorem run_cycle_ok_ok (bd cd : Text) :
    run_cycle (.ok bd) (.ok cd) =
      (match extract_headset bd with
        | .error _ => CycleOutcome.loggedError
        | .ok _ =>
          match get_levels bd cd with
          | .error _ => CycleOutcome.loggedError
          | .ok levels => CycleOutcome.published (oscMessages levels)) := rfl

/-! ## The claims -/

/-- C1: for a controller dump with lines `   handler: left`, an unrelated
line, `   battery: 4`, `   handler: right`, `   battery: 5`, extraction
returns left raw 4 and right raw 5, and normalization yields 0.8 and 1.0. -/
theorem claim_C1 :
    extract_left (controllerBlock
        ("   handler: left\nx\n   battery: 4\n   handler: right\n   battery: 5".data)) =
      .ok 4 ∧
    extract_right (controllerBlock
        ("   handler: left\nx\n   battery: 4\n   handler: right\n   battery: 5".data)) =
      .ok 5 ∧
    (normalize 73 4 5).left_controller = 4 / 5 ∧
    (normalize 73 4 5).right_controller = 1 :=
  ⟨by decide, by decide, by simp [normalize], by simp [normalize]⟩

/-- C2 (counterexample): the code uses `str::replace`, which removes every
occurrence of the level prefix from the matched line, not only the leading
one.  On the dump `  level:   level: 7` the claimed strip-the-prefix
behaviour (`spec_extract_headset`) fails with a parse error while the code
succeeds with 7. -/
theorem claim_C2_counterexample :
    extract_headset ("  level:   level: 7".data) = .ok 7 ∧
      spec_extract_headset ("  level:   level: 7".data) = .error .headsetParseError :=
  ⟨by decide, by decide⟩

/-- C2 (amended): headset extraction takes the first line beginning with the
level prefix, removes every occurrence of the prefix from that line
(`str::replace`, not a prefix strip), and parses the result as `u8`; later
matching lines are ignored.  In particular a first matching line of the exact
form `  level: N`, with `N` decimal digits parsing into [0,255], yields `N`. -/
theorem claim_C2 :
    (∀ (dump : Text) (pre post : List Text) (line : Text) (n : Nat),
      rustLines dump = pre ++ line :: post →
      (∀ l ∈ pre, hasPref LEVEL_KEY l = false) →
      hasPref LEVEL_KEY line = true →
      parseU8 (replaceAll LEVEL_KEY line) = some n →
      extract_headset dump = .ok n) ∧
    (∀ (dump : Text) (pre post : List Text) (s : Text) (n : Nat),
      rustLines dump = pre ++ (LEVEL_KEY ++ s) :: post →
      (∀ l ∈ pre, hasPref LEVEL_KEY l = false) →
      (∀ c ∈ s, c.isDigit = true) →
      parseU8 s = some n →
      extract_headset dump = .ok n) := by
  have hgen : ∀ (dump : Text) (pre post : List Text) (line : Text) (n : Nat),
      rustLines dump = pre ++ line :: post →
      (∀ l ∈ pre, hasPref LEVEL_KEY l = false) →
      hasPref LEVEL_KEY line = true →
      parseU8 (replaceAll LEVEL_KEY line) = some n →
      extract_headset dump = .ok n := by
    intro dump pre post line n hsplit hpre hline hparse
    have hfind : (rustLines dump).find? (fun l => hasPref LEVEL_KEY l) = some line := by
      rw [hsplit]
      exact find_skip _ _ _ _ hpre hline
    rw [extract_headset_found dump line hfind, hparse]
  refine ⟨hgen, ?_⟩
  intro dump pre post s n hsplit hpre hdig hparse
  have hrep : replaceAll LEVEL_KEY (LEVEL_KEY ++ s) = s :=
    replaceAll_strip _ _ (by decide) (hasPref_levelKey_digits s hdig)
  exact hgen dump pre post (LEVEL_KEY ++ s) n hsplit hpre (hasPref_append _ _)
    (by rw [hrep]; exact hparse)

/-- C2 witness: on the dump `  level: 42` extraction returns 42. -/
theorem claim_C2_witness : extract_headset ("  level: 42".data) = .ok 42 :=
  claim_C2.2 ("  level: 42".data) [] [] ("42".data) 42 (by decide) (by simp)
    (by decide) (by decide)

/-- C3 (counterexample): the compiled regex captures `[0-9]*` — zero or more
digits — so on the dump `   handler: left` / `   battery: x` the claimed
one-or-more-digits pattern (`claimPatternMatches`) matches zero times, yet the
code fails with `leftParseError` (empty capture), not `leftCaptureNotFound`. -/
theorem claim_C3_counterexample :
    claimPatternMatches LEFT_TAG
        (controllerBlock ("   handler: left\n   battery: x".data)) = false ∧
      extract_left (controllerBlock ("   handler: left\n   battery: x".data)) =
        .error .leftParseError :=
  ⟨by decide, by decide⟩

/-- C3 (amended): each side fails with its `CaptureNotFound` exactly when no
occurrence of `handler: <side>` is followed by a later `battery: ` marker
(the digit capture may be empty); a capture that is present but does not parse
as `u8` fails with the side's `ParseError`; and on a dump with only a left
handler block, left extraction succeeds while right extraction fails with
`rightCaptureNotFound`. -/
theorem claim_C3 :
    (∀ block : Text, extract_left block = .error .leftCaptureNotFound ↔
      ¬ ∃ i k, hasPref LEFT_TAG (block.drop i) = true ∧
        hasPref BATTERY_TAG (block.drop (i + LEFT_TAG.length + k)) = true) ∧
    (∀ block : Text, extract_right block = .error .rightCaptureNotFound ↔
      ¬ ∃ i k, hasPref RIGHT_TAG (block.drop i) = true ∧
        hasPref BATTERY_TAG (block.drop (i + RIGHT_TAG.length + k)) = true) ∧
    (∀ block cap : Text, regexCapture LEFT_TAG block = some cap →
      parseU8 cap = none → extract_left block = .error .leftParseError) ∧
    (∀ block cap : Text, regexCapture RIGHT_TAG block = some cap →
      parseU8 cap = none → extract_right block = .error .rightParseError) ∧
    extract_left (controllerBlock ("   handler: left\n   battery: 2".data)) = .ok 2 ∧
    extract_right (controllerBlock ("   handler: left\n   battery: 2".data)) =
      .error .rightCaptureNotFound := by
  refine ⟨?_, ?_, ?_, ?_, by decide, by decide⟩
  · intro block
    rw [extract_left_notFound_iff, regexCapture_eq_none]
  · intro block
    rw [extract_right_notFound_iff, regexCapture_eq_none]
  · intro block cap hc hp
    rw [extract_left_cap block cap hc, hp]
  · intro block cap hc hp
    rw [extract_right_cap block cap hc, hp]

/-- C3 witness: a left handler block whose battery line carries no digits
produces an empty capture and a `leftParseError`. -/
theorem claim_C3_witness :
    extract_left (controllerBlock ("   handler: left\n   battery: ".data)) =
      .error .leftParseError :=
  claim_C3.2.2.1 (controllerBlock ("   handler: left\n   battery: ".data)) []
    (by decide) (by decide)

/-- C4: normalization divides each raw reading by its device scale (100 for
the headset, 5 per controller) with no clamping: values above the scale
normalize to results above 1, and 150 normalizes to 1.5. -/
theorem claim_C4 :
    (∀ h l r : Nat, (normalize h l r).headset = (h : ℚ) / 100 ∧
      (normalize h l r).left_controller = (l : ℚ) / 5 ∧
      (normalize h l r).right_controller = (r : ℚ) / 5) ∧
    (∀ h l r : Nat, 100 < h → 1 < (normalize h l r).headset) ∧
    (∀ h l r : Nat, 5 < l → 1 < (normalize h l r).left_controller) ∧
    (∀ h l r : Nat, 5 < r → 1 < (normalize h l r).right_controller) ∧
    (normalize 150 0 0).headset = 3 / 2 := by
  refine ⟨fun h l r => ⟨rfl, rfl, rfl⟩, ?_, ?_, ?_, ?_⟩
  · intro h l r hh
    show (1 : ℚ) < (h : ℚ) / 100
    rw [lt_div_iff₀ (by norm_num : (0:ℚ) < 100), one_mul]
    exact_mod_cast hh
  · intro h l r hl
    show (1 : ℚ) < (l : ℚ) / 5
    rw [lt_div_iff₀ (by norm_num : (0:ℚ) < 5), one_mul]
    exact_mod_cast hl
  · intro h l r hr
    show (1 : ℚ) < (r : ℚ) / 5
    rw [lt_div_iff₀ (by norm_num : (0:ℚ) < 5), one_mul]
    exact_mod_cast hr
  · show ((150 : Nat) : ℚ) / 100 = 3 / 2
    norm_num

/-- C4 witness: raw readings 150, 6, 7 all normalize above 1. -/
theorem claim_C4_witness :
    1 < (normalize 150 6 7).headset ∧ 1 < (normalize 150 6 7).left_controller ∧
      1 < (normalize 150 6 7).right_controller :=
  ⟨claim_C4.2.1 150 6 7 (by norm_num), claim_C4.2.2.1 150 6 7 (by norm_num),
    claim_C4.2.2.2.1 150 6 7 (by norm_num)⟩

/-- C5 (counterexample): on the dump `  level:   level: 42` the first
matching line's remainder after the prefix (`  level: 42`) is not a valid
integer, yet the code succeeds with 42 because `str::replace` removes both
occurrences; the spec-worded extraction fails with a parse error. -/
theorem claim_C5_counterexample :
    extract_headset ("  level:   level: 42".data) = .ok 42 ∧
      spec_extract_headset ("  level:   level: 42".data) = .error .headsetParseError :=
  ⟨by decide, by decide⟩

/-- C5 (amended): with no line beginning with the level prefix, headset
extraction fails with `headsetNotFound`; when the first matching line, after
removal of every occurrence of the prefix (`str::replace`), does not parse as
`u8`, it fails with `headsetParseError`. -/
theorem claim_C5 :
    (∀ dump : Text, (∀ l ∈ rustLines dump, hasPref LEVEL_KEY l = false) →
      extract_headset dump = .error .headsetNotFound) ∧
    (∀ (dump : Text) (pre post : List Text) (line : Text),
      rustLines dump = pre ++ line :: post →
      (∀ l ∈ pre, hasPref LEVEL_KEY l = false) →
      hasPref LEVEL_KEY line = true →
      parseU8 (replaceAll LEVEL_KEY line) = none →
      extract_headset dump = .error .headsetParseError) := by
  constructor
  · intro dump hall
    have hfind : (rustLines dump).find? (fun l => hasPref LEVEL_KEY l) = none := by
      rw [List.find?_eq_none]
      intro l hl
      simp [hall l hl]
    exact extract_headset_noline dump hfind
  · intro dump pre post line hsplit hpre hline hparse
    have hfind : (rustLines dump).find? (fun l => hasPref LEVEL_KEY l) = some line := by
      rw [hsplit]
      exact find_skip _ _ _ _ hpre hline
    rw [extract_headset_found dump line hfind, hparse]

/-- C5 witness: an empty dump yields `headsetNotFound`; the dump
`  level: abc` yields `headsetParseError`. -/
theorem claim_C5_witness :
    extract_headset ("".data) = .error .headsetNotFound ∧
      extract_headset ("  level: abc".data) = .error .headsetParseError :=
  ⟨claim_C5.1 ("".data) (by decide),
    claim_C5.2 ("  level: abc".data) [] [] ("  level: abc".data) (by decide) (by simp)
      (by decide) (by decide)⟩

/-- C6: a successful controller extraction comes from the first match: the
capture sits at the first occurrence of the side's handler tag, paired with
the first `battery: ` marker after it, for both sides. -/
theorem claim_C6 :
    (∀ (block : Text) (n : Nat), extract_left block = .ok n →
      ∃ cap, regexCapture LEFT_TAG block = some cap ∧ parseU8 cap = some n ∧
        ∃ i, hasPref LEFT_TAG (block.drop i) = true ∧
          (∀ j, j < i → hasPref LEFT_TAG (block.drop j) = false) ∧
          ∃ k, hasPref BATTERY_TAG (block.drop (i + LEFT_TAG.length + k)) = true ∧
            (∀ m, m < k →
              hasPref BATTERY_TAG (block.drop (i + LEFT_TAG.length + m)) = false) ∧
            cap = (block.drop
              (i + LEFT_TAG.length + k + BATTERY_TAG.length)).takeWhile Char.isDigit) ∧
    (∀ (block : Text) (n : Nat), extract_right block = .ok n →
      ∃ cap, regexCapture RIGHT_TAG block = some cap ∧ parseU8 cap = some n ∧
        ∃ i, hasPref RIGHT_TAG (block.drop i) = true ∧
          (∀ j, j < i → hasPref RIGHT_TAG (block.drop j) = false) ∧
          ∃ k, hasPref BATTERY_TAG (block.drop (i + RIGHT_TAG.length + k)) = true ∧
            (∀ m, m < k →
              hasPref BATTERY_TAG (block.drop (i + RIGHT_TAG.length + m)) = false) ∧
            cap = (block.drop
              (i + RIGHT_TAG.length + k + BATTERY_TAG.length)).takeWhile Char.isDigit) := by
  constructor
  · intro block n h
    cases hc : regexCapture LEFT_TAG block with
    | none => rw [extract_left_nocap block hc] at h; cases h
    | some cap =>
      rw [extract_left_cap block cap hc] at h
      cases hp : parseU8 cap with
      | none => rw [hp] at h; cases h
      | some m =>
        rw [hp] at h
        cases h
        exact ⟨cap, rfl, hp, regexCapture_eq_some LEFT_TAG block cap hc⟩
  · intro block n h
    cases hc : regexCapture RIGHT_TAG block with
    | none => rw [extract_right_nocap block hc] at h; cases h
    | some cap =>
      rw [extract_right_cap block cap hc] at h
      cases hp : parseU8 cap with
      | none => rw [hp] at h; cases h
      | some m =>
        rw [hp] at h
        cases h
        exact ⟨cap, rfl, hp, regexCapture_eq_some RIGHT_TAG block cap hc⟩

/-- C6 witness: with two left handler blocks carrying 1 then 2, extraction
returns the first value and the regex capture exists with value 1. -/
theorem claim_C6_witness :
    ∃ cap, regexCapture LEFT_TAG (controllerBlock
        ("   handler: left\n   battery: 1\n   handler: left\n   battery: 2".data ++
          ("\n   handler: right\n   battery: 4\n   handler: right\n   battery: 5".data))) =
      some cap ∧ parseU8 cap = some 1 := by
  obtain ⟨cap, h1, h2, _⟩ := claim_C6.1 (controllerBlock
    ("   handler: left\n   battery: 1\n   handler: left\n   battery: 2".data ++
      ("\n   handler: right\n   battery: 4\n   handler: right\n   battery: 5".data))) 1
    (by decide)
  exact ⟨cap, h1, h2⟩

/-- C7 (counterexample): a cycle whose battery-dump subprocess fails does not
log-and-continue — the `.expect(..)` in `get_battery_dump` panics and the
process crashes. -/
theorem claim_C7_counterexample :
    run_cycle (.error .spawnFailure) (.ok ("".data)) =
      .panicked ("Failed to get headset battery") := rfl

/-- C7 (amended): when both dumps are obtained and level extraction fails,
the cycle logs an error and sends no messages without crashing; a
battery-dump subprocess failure instead panics the process via `.expect`. -/
theorem claim_C7 :
    (∀ (bd cd : Text) (e : VoltaError), get_levels bd cd = .error e →
      run_cycle (.ok bd) (.ok cd) = .loggedError) ∧
    (∀ (e : SubprocessError) (cr : Except SubprocessError Text),
      run_cycle (.error e) cr = .panicked ("Failed to get headset battery")) := by
  constructor
  · intro bd cd e h
    rw [run_cycle_ok_ok bd cd]
    cases h1 : extract_headset bd with
    | error e2 => rfl
    | ok hn => rw [h]
  · intro e cr
    rfl

/-- C7 witness: an empty battery dump makes extraction fail and the cycle
merely logs. -/
theorem claim_C7_witness : run_cycle (.ok ("".data)) (.ok ("".data)) = .loggedError :=
  claim_C7.1 ("".data) ("".data) .headsetNotFound (by decide)

/-- C8: a cycle whose extraction succeeds publishes exactly the three fixed
OSC addresses, each with the corresponding normalized level, in the order
headset, left, right. -/
theorem claim_C8 (bd cd : Text) (lv : BatteryLevels)
    (h : get_levels bd cd = .ok lv) :
    run_cycle (.ok bd) (.ok cd) = .published
      [("/avatar/parameters/BatteryLevelHeadset", lv.headset),
        ("/avatar/parameters/BatteryLevelControllerLeft", lv.left_controller),
        ("/avatar/parameters/BatteryLevelControllerRight", lv.right_controller)] := by
  obtain ⟨hn, ln, rn, h1, h2, h3, rfl⟩ := get_levels_ok bd cd lv h
  rw [run_cycle_ok_ok bd cd, h1, h]
  rfl

/-- C8 witness: a successful cycle on concrete dumps publishes the three
messages with values 0.8, 0.8 and 1. -/
theorem claim_C8_witness :
    run_cycle (.ok ("  level: 80".data))
        (.ok ("   handler: left\nx\n   battery: 4\n   handler: right\n   battery: 5".data)) =
      .published
        [("/avatar/parameters/BatteryLevelHeadset", (4 : ℚ) / 5),
          ("/avatar/parameters/BatteryLevelControllerLeft", (4 : ℚ) / 5),
          ("/avatar/parameters/BatteryLevelControllerRight", (1 : ℚ))] := by
  have h1 : extract_headset ("  level: 80".data) = .ok 80 := by decide
  have h2 : extract_left (controllerBlock
      ("   handler: left\nx\n   battery: 4\n   handler: right\n   battery: 5".data)) =
      .ok 4 := by decide
  have h3 : extract_right (controllerBlock
      ("   handler: left\nx\n   battery: 4\n   handler: right\n   battery: 5".data)) =
      .ok 5 := by decide
  have hg : get_levels ("  level: 80".data)
      ("   handler: left\nx\n   battery: 4\n   handler: right\n   battery: 5".data) =
      .ok ⟨4 / 5, 4 / 5, 1⟩ := by
    rw [get_levels_headset_ok _ _ 80 h1, h2, h3]
    simp only [normalize, Except.ok.injEq, BatteryLevels.mk.injEq]
    norm_num
  exact claim_C8 _ _ ⟨4 / 5, 4 / 5, 1⟩ hg

/-- C9: the controller identity is matched as a bare substring: a dump whose
only handler line is `   handler: leftmost` still satisfies the left regex,
and left extraction succeeds with the following battery value. -/
theorem claim_C9 :
    extract_left (controllerBlock ("   handler: leftmost\n   battery: 3".data)) =
      .ok 3 := by
  decide

/-- C10: a successful extraction only ever produces raw readings that fit in
eight bits, so every published level is non-negative, the headset level is at
most 2.55 and each controller level is at most 51. -/
theorem claim_C10 (bd cd : Text) (lv : BatteryLevels)
    (h : get_levels bd cd = .ok lv) :
    0 ≤ lv.headset ∧ lv.headset ≤ 51 / 20 ∧
      0 ≤ lv.left_controller ∧ lv.left_controller ≤ 51 ∧
      0 ≤ lv.right_controller ∧ lv.right_controller ≤ 51 := by
  obtain ⟨hn, ln, rn, h1, h2, h3, rfl⟩ := get_levels_ok bd cd lv h
  have b1 : hn ≤ 255 := extract_headset_le _ _ h1
  have b2 : ln ≤ 255 := extract_left_le _ _ h2
  have b3 : rn ≤ 255 := extract_right_le _ _ h3
  have c1 : (hn : ℚ) ≤ 255 := by exact_mod_cast b1
  have c2 : (ln : ℚ) ≤ 255 := by exact_mod_cast b2
  have c3 : (rn : ℚ) ≤ 255 := by exact_mod_cast b3
  refine ⟨?_, ?_, ?_, ?_, ?_, ?_⟩
  · show (0 : ℚ) ≤ (hn : ℚ) / 100
    positivity
  · show (hn : ℚ) / 100 ≤ 51 / 20
    rw [div_le_iff₀ (by norm_num : (0:ℚ) < 100)]
    calc (hn : ℚ) ≤ 255 := c1
    _ ≤ 51 / 20 * 100 := by norm_num
  · show (0 : ℚ) ≤ (ln : ℚ) / 5
    positivity
  · show (ln : ℚ) / 5 ≤ 51
    rw [div_le_iff₀ (by norm_num : (0:ℚ) < 5)]
    calc (ln : ℚ) ≤ 255 := c2
    _ ≤ 51 * 5 := by norm_num
  · show (0 : ℚ) ≤ (rn : ℚ) / 5
    positivity
  · show (rn : ℚ) / 5 ≤ 51
    rw [div_le_iff₀ (by norm_num : (0:ℚ) < 5)]
    calc (rn : ℚ) ≤ 255 := c3
    _ ≤ 51 * 5 := by norm_num

/-- C10 witness: the bounds hold on a concrete successful cycle. -/
theorem claim_C10_witness :
    (0 : ℚ) ≤ 4 / 5 ∧ (4 : ℚ) / 5 ≤ 51 / 20 ∧
      (0 : ℚ) ≤ 4 / 5 ∧ (4 : ℚ) / 5 ≤ 51 ∧
      (0 : ℚ) ≤ 1 ∧ (1 : ℚ) ≤ 51 := by
  have h1 : extract_headset ("  level: 80".data) = .ok 80 := by decide
  have h2 : extract_left (controllerBlock
      ("   handler: left\nx\n   battery: 4\n   handler: right\n   battery: 5".data)) =
      .ok 4 := by decide
  have h3 : extract_right (controllerBlock
      ("   handler: left\nx\n   battery: 4\n   handler: right\n   battery: 5".data)) =
      .ok 5 := by decide
  have hg : get_levels ("  level: 80".data)
      ("   handler: left\nx\n   battery: 4\n   handler: right\n   battery: 5".data) =
      .ok ⟨4 / 5, 4 / 5, 1⟩ := by
    rw [get_levels_headset_ok _ _ 80 h1, h2, h3]
    simp only [normalize, Except.ok.injEq, BatteryLevels.mk.injEq]
    norm_num
  exact claim_C10 _ _ ⟨4 / 5, 4 / 5, 1⟩ hg

end Volta
